import Mathlib

/-!
# chat: connection registry, dispatcher loop and client lifecycle

A shallow embedding of `websocket.go` (package `chat`: `AliveList`, `Client`,
`Message`) and of `HandleRequest` from `handler.go`.

Modelling conventions.

* A `*Client` is represented by the value of its three fields, none of which is
  assigned after construction. `conn` and `cancel` are handles: the state of the
  channel behind `cancel` lives in `World.chans`.
* The package-level `aliveList` is the field `World.aliveList`.
* `map[string]*Client` is an association list without duplicate keys
  (`AList`); `for id := range` visits its keys in list order.
* A buffered Go channel is the list of buffered values, oldest first, with the
  capacity given at `make`. A send on a full buffer suspends the sending
  goroutine: the operation ends in `Outcome.blocked`. A send on a closed
  channel ends in `Outcome.panicked`.
* The transport (`*websocket.Conn`) and the clock are the environment:
  `writeFails`, `closeFails` say which connections report an error, `now` is
  the reading of `time.Now().Unix()`.
* `World.trace` is a ghost log of the transport operations performed and of
  the entries into `Client.SendMessage` and `Client.Close`. `log.Println` is
  not modelled.
-/

namespace Chat

/-! ## Message type constants (`websocket.go`, the `iota` block) -/

def SystemMessage : Int := 0
def BroadcastMessage : Int := 1
def HeartBeatMessage : Int := 2
def ConnectedMessage : Int := 3
def DisconnectedMessage : Int := 4
def BreakMessage : Int := 5
def RegisterMessage : Int := 6

/-! ## Data model -/

/-- Message: the envelope. The Go field `Type` is spelled `Typ` (keyword). -/
structure Message where
  ID : String
  Content : String
  SentAt : Int
  Typ : Int
  To : String
  GroupID : String
  FromUserID : String
  ToUserID : String
  deriving DecidableEq

/-- Client: `ID`, the connection handle and the handle of the `cancel` channel. -/
structure Client where
  ID : String
  conn : Nat
  cancel : Nat
  deriving DecidableEq

/-- Go `error` values that occur in the modelled code. -/
inductive Error where
  | write (conn : Nat)
  | close (conn : Nat)
  | connNotFound (msg : Message)
  | upgrade
  | decode
  deriving DecidableEq

/-- State of a `chan int`: buffered values and whether `close` was called. -/
structure IntChan where
  buf : List Int
  closed : Bool
  deriving DecidableEq

/-- AliveList: the registry with its four event streams and the counter. -/
structure AliveList where
  ConnList : AList (fun _ : String => Client)
  register : List Client
  destroy : List Client
  broadcast : List Message
  cancel : List Int
  Len : Int

/-- Ghost log entries. -/
inductive Event where
  | writeJSON (conn : Nat) (msg : Message)
  | writeClose (conn : Nat)
  | connClose (conn : Nat)
  | callSend (cli : Client) (messageType : Int) (message : String)
  | callClose (cli : Client)
  deriving DecidableEq

/-- World: the program state together with the environment. -/
structure World where
  aliveList : AliveList
  chans : Nat → IntChan
  nextChan : Nat
  now : Int
  writeFails : Nat → Bool
  closeFails : Nat → Bool
  trace : List Event

/-- Outcome of running an operation: it returned, it is suspended on a channel
operation, it panicked, or the process exited. -/
inductive Outcome (α : Type) where
  | ok (w : World) (a : α)
  | blocked (w : World)
  | panicked (w : World)
  | exited (w : World)

/-- The world in which the operation stopped, whatever the outcome. -/
def Outcome.world {α : Type} : Outcome α → World
  | .ok w _ => w
  | .blocked w => w
  | .panicked w => w
  | .exited w => w

/-- Sequencing: the continuation runs only after a return. -/
def Outcome.bind {α β : Type} (o : Outcome α) (f : World → α → Outcome β) : Outcome β :=
  match o with
  | .ok w a => f w a
  | .blocked w => .blocked w
  | .panicked w => .panicked w
  | .exited w => .exited w

def Outcome.isOk {α : Type} : Outcome α → Bool
  | .ok _ _ => true
  | _ => false

def Outcome.isBlocked {α : Type} : Outcome α → Bool
  | .blocked _ => true
  | _ => false

def Outcome.isPanicked {α : Type} : Outcome α → Bool
  | .panicked _ => true
  | _ => false

/-- The value returned, when the operation returned. -/
def Outcome.value? {α : Type} : Outcome α → Option α
  | .ok _ a => some a
  | _ => none

/-- Capacity of the `register`, `destroy` and `broadcast` channels. -/
def streamCap : Nat := 1000

/-- Capacity of `Client.cancel`. -/
def cancelCap : Nat := 1

def World.record (w : World) (e : Event) : World :=
  { w with trace := w.trace ++ [e] }

/-- Events logged by an operation started in `w`. -/
def newEvents {α : Type} (w : World) (o : Outcome α) : List Event :=
  o.world.trace.drop w.trace.length

/-! ## Transport -/

/-- `conn.WriteMessage(websocket.CloseMessage, []byte("close"))`. -/
def Conn.WriteMessageClose (w : World) (conn : Nat) : World × Option Error :=
  (w.record (.writeClose conn), if w.writeFails conn then some (.write conn) else none)

/-- `conn.WriteJSON(msg)`. -/
def Conn.WriteJSON (w : World) (conn : Nat) (msg : Message) : World × Option Error :=
  (w.record (.writeJSON conn msg), if w.writeFails conn then some (.write conn) else none)

/-- `conn.Close()`. -/
def Conn.Close (w : World) (conn : Nat) : World × Option Error :=
  (w.record (.connClose conn), if w.closeFails conn then some (.close conn) else none)

/-! ## AliveList -/

/-- NewAliveList: empty map, empty channels, `Len: 0`. -/
def NewAliveList : AliveList :=
  { ConnList := ∅, register := [], destroy := [], broadcast := [], cancel := [], Len := 0 }

/-- Register: `al.register <- client`. -/
def AliveList.Register (w : World) (client : Client) : Outcome Unit :=
  if w.aliveList.register.length < streamCap then
    .ok { w with aliveList := { w.aliveList with register := w.aliveList.register ++ [client] } } ()
  else .blocked w

/-- Destroy: `al.destroy <- client`. -/
def AliveList.Destroy (w : World) (client : Client) : Outcome Unit :=
  if w.aliveList.destroy.length < streamCap then
    .ok { w with aliveList := { w.aliveList with destroy := w.aliveList.destroy ++ [client] } } ()
  else .blocked w

/-- Broadcast: `al.broadcast <- message`. -/
def AliveList.Broadcast (w : World) (message : Message) : Outcome Unit :=
  if w.aliveList.broadcast.length < streamCap then
    .ok { w with aliveList := { w.aliveList with broadcast := w.aliveList.broadcast ++ [message] } } ()
  else .blocked w

/-- SysBroadcast: overwrite the type, then `Broadcast`. -/
def AliveList.SysBroadcast (w : World) (messageType : Int) (message : Message) : Outcome Unit :=
  AliveList.Broadcast w { message with Typ := messageType }

/-! ## Client -/

/-- Close: `cli.cancel <- 1`, broadcast of the `DisconnectedMessage`, `Destroy`. -/
def Client.Close (w : World) (cli : Client) : Outcome Unit :=
  let w0 := w.record (.callClose cli)
  let ch := w0.chans cli.cancel
  if ch.closed then .panicked w0
  else if ch.buf.length < cancelCap then
    let w1 := { w0 with chans := Function.update w0.chans cli.cancel { ch with buf := ch.buf ++ [1] } }
    (AliveList.Broadcast w1
      { ID := cli.ID, Content := "", SentAt := 0, Typ := DisconnectedMessage,
        To := "", GroupID := "", FromUserID := "", ToUserID := "" }).bind
      fun w2 _ => AliveList.Destroy w2 cli
  else .blocked w0

/-- SendMessage: a close frame for `BreakMessage`, else a JSON envelope, with
`cli.Close()` when writing the envelope fails. -/
def Client.SendMessage (w : World) (cli : Client) (messageType : Int) (message : String) :
    Outcome (Option Error) :=
  let w0 := w.record (.callSend cli messageType message)
  if messageType = BreakMessage then
    let r := Conn.WriteMessageClose w0 cli.conn
    .ok r.1 r.2
  else
    let msg : Message :=
      { ID := cli.ID, Content := message, SentAt := w0.now, Typ := messageType,
        To := "", GroupID := "", FromUserID := "", ToUserID := "" }
    let r := Conn.WriteJSON w0 cli.conn msg
    match r.2 with
    | some err => (Client.Close r.1 cli).bind fun w2 _ => .ok w2 (some err)
    | none => .ok r.1 none

/-- Broadcast: the broadcast of one client, with its id as sender. -/
def Client.Broadcast (w : World) (cli : Client) (msg : String) : Outcome Unit :=
  AliveList.Broadcast w
    { ID := cli.ID, Content := msg, SentAt := w.now, Typ := BroadcastMessage,
      To := "", GroupID := "", FromUserID := "", ToUserID := "" }

/-- The two cases of the `select` in `Client.HeartBeat`. -/
inductive HeartBeatCase where
  | tick
  | cancel

/-- HeartBeat: one iteration of the loop. The result says whether the monitor
goes on (`true`) or has returned (`false`). The `cancel` case receives from
`cli.cancel` and then closes that channel. -/
def Client.HeartBeat (w : World) (cli : Client) : HeartBeatCase → Outcome Bool
  | .tick => (Client.SendMessage w cli HeartBeatMessage "heart beat").bind fun w1 _ => .ok w1 true
  | .cancel =>
    let ch := w.chans cli.cancel
    match ch.buf with
    | _ :: rest =>
      if ch.closed then .panicked { w with chans := Function.update w.chans cli.cancel { ch with buf := rest } }
      else .ok { w with chans := Function.update w.chans cli.cancel { buf := rest, closed := true } } false
    | [] => if ch.closed then .panicked w else .blocked w

/-- NewWebSocket: after the upgrade, build the client with a fresh
`make(chan int, 1)` and register it. `upgrade` is the result of
`upgrader.Upgrade`. -/
def NewWebSocket (w : World) (id : String) (upgrade : Except Error Nat) :
    Outcome (Except Error Client) :=
  match upgrade with
  | .error err => .ok w (.error err)
  | .ok conn =>
    let client : Client := { conn := conn, ID := id, cancel := w.nextChan }
    let w1 := { w with chans := Function.update w.chans w.nextChan { buf := [], closed := false },
                       nextChan := w.nextChan + 1 }
    (AliveList.Register w1 client).bind fun w2 _ => .ok w2 (.ok client)

/-! ## The dispatcher loop -/

/-- The method `sendMessage` of `AliveList`: look the id up and send, or report `conn not found`. -/
def AliveList.sendMessage (w : World) (id : String) (msg : Message) : Outcome (Option Error) :=
  match w.aliveList.ConnList.lookup id with
  | some conn => Client.SendMessage w conn msg.Typ msg.Content
  | none => .ok w (some (.connNotFound msg))

/-- The `for id := range al.ConnList` loop of the broadcast case, over the keys
still to visit. An error of `sendMessage` is logged and the loop goes on. -/
def AliveList.fanout (message : Message) : World → List String → Outcome Unit
  | w, [] => .ok w ()
  | w, id :: ids =>
    if id ≠ message.ID then
      match AliveList.sendMessage w id message with
      | .ok w1 _ => AliveList.fanout message w1 ids
      | .blocked w1 => .blocked w1
      | .panicked w1 => .panicked w1
      | .exited w1 => .exited w1
    else AliveList.fanout message w ids

/-- Body of `case client := <-al.register`. -/
def AliveList.run_register (w : World) (client : Client) : Outcome Unit :=
  let al := w.aliveList
  let w1 := { w with aliveList :=
    { al with ConnList := al.ConnList.insert client.ID client, Len := al.Len + 1 } }
  AliveList.SysBroadcast w1 ConnectedMessage
    { ID := client.ID, Content := "connected", SentAt := w1.now, Typ := 0,
      To := "", GroupID := "", FromUserID := "", ToUserID := "" }

/-- Body of `case client := <-al.destroy`. -/
def AliveList.run_destroy (w : World) (client : Client) : Outcome Unit :=
  let r := Conn.Close w client.conn
  let al := r.1.aliveList
  .ok { r.1 with aliveList :=
    { al with ConnList := al.ConnList.erase client.ID, Len := al.Len - 1 } } ()

/-- Body of `case message := <-al.broadcast`. -/
def AliveList.run_broadcast (w : World) (message : Message) : Outcome Unit :=
  AliveList.fanout message w w.aliveList.ConnList.keys

/-- The cases of the `select` in `run`. -/
inductive Ready where
  | register
  | destroy
  | broadcast
  | cancel

/-- One iteration of `for { select { ... } }` in `run`, taking the given case:
receive from that channel, then run the body. A case whose channel is empty is
not ready. -/
def AliveList.run (w : World) : Ready → Outcome Unit
  | .register =>
    match w.aliveList.register with
    | [] => .blocked w
    | client :: rest =>
      AliveList.run_register { w with aliveList := { w.aliveList with register := rest } } client
  | .destroy =>
    match w.aliveList.destroy with
    | [] => .blocked w
    | client :: rest =>
      AliveList.run_destroy { w with aliveList := { w.aliveList with destroy := rest } } client
  | .broadcast =>
    match w.aliveList.broadcast with
    | [] => .blocked w
    | message :: rest =>
      AliveList.run_broadcast { w with aliveList := { w.aliveList with broadcast := rest } } message
  | .cancel =>
    match w.aliveList.cancel with
    | [] => .blocked w
    | _ :: rest => .exited { w with aliveList := { w.aliveList with cancel := rest } }

/-- A step of a scenario: a call made by some other goroutine (a producer call,
`Client.Close`, one iteration of the `HeartBeat` of a client), or one iteration of
`run`. -/
inductive Step where
  | Register (client : Client)
  | Destroy (client : Client)
  | Broadcast (message : Message)
  | Close (cli : Client)
  | HeartBeat (cli : Client) (c : HeartBeatCase)
  | run (r : Ready)

def Step.exec (w : World) : Step → Outcome Unit
  | .Register client => AliveList.Register w client
  | .Destroy client => AliveList.Destroy w client
  | .Broadcast message => AliveList.Broadcast w message
  | .Close cli => Client.Close w cli
  | .HeartBeat cli c => (Client.HeartBeat w cli c).bind fun w1 _ => .ok w1 ()
  | .run r => AliveList.run w r

/-- Run the steps in order, stopping at the first that does not return. -/
def exec : World → List Step → Outcome Unit
  | w, [] => .ok w ()
  | w, s :: ss => (Step.exec w s).bind fun w1 _ => exec w1 ss

/-! ## `HandleRequest` (`handler.go`) -/

/-- Calls made on the installed `EventInterface`. -/
inductive Hook where
  | BroadcastEvent (msg : Message) (cli : Client)
  | HeartBeatEvent (msg : Message) (cli : Client)
  | DefaultMessageEvent (messageType : Int) (msg : Message) (cli : Client)
  deriving DecidableEq

/-- HandleRequest: decode, then switch on the type. `Unmarshal` stands for
`json.Unmarshal` into a `Message`. The result is the list of hook calls made and
the returned `err`; what a hook returns is discarded by the code. -/
def HandleRequest (Unmarshal : List UInt8 → Except Error Message) (cli : Client)
    (msg : List UInt8) : List Hook × Option Error :=
  match Unmarshal msg with
  | .error err => ([], some err)
  | .ok msgBody =>
    if msgBody.Typ = BroadcastMessage ∨ msgBody.Typ = SystemMessage then
      ([Hook.BroadcastEvent msgBody cli], none)
    else if msgBody.Typ = HeartBeatMessage then
      ([Hook.HeartBeatEvent msgBody cli], none)
    else
      ([Hook.DefaultMessageEvent msgBody.Typ msgBody cli], none)

/-! ## Observations on the ghost log -/

def Event.isWire : Event → Bool
  | .writeJSON _ _ => true
  | .writeClose _ => true
  | _ => false

/-- The frames written to connections, in order. -/
def wireWrites (es : List Event) : List Event := es.filter Event.isWire

/-- The clients on which `SendMessage` was entered, in order. -/
def sendCalls : List Event → List Client
  | [] => []
  | .callSend cli _ _ :: es => cli :: sendCalls es
  | _ :: es => sendCalls es

/-- The envelope `SendMessage` builds for a client. -/
def envelope (w : World) (cli : Client) (messageType : Int) (message : String) : Message :=
  { ID := cli.ID, Content := message, SentAt := w.now, Typ := messageType,
    To := "", GroupID := "", FromUserID := "", ToUserID := "" }

/-- Events logged by `SendMessage`, as a function of the write result. -/
def sendEvents (w : World) (cli : Client) (messageType : Int) (message : String) : List Event :=
  .callSend cli messageType message ::
    (if messageType = BreakMessage then [.writeClose cli.conn]
     else .writeJSON cli.conn (envelope w cli messageType message) ::
       (if w.writeFails cli.conn then [.callClose cli] else []))

/-- The clients the broadcast loop sends to when it visits all of `keys`: those
registered under a key other than the sender id, in iteration order. -/
def recipientsOf (w : World) (message : Message) (keys : List String) : List Client :=
  (keys.filter fun id => decide (id ≠ message.ID)).filterMap
    fun id => w.aliveList.ConnList.lookup id

/-- The part of the world that a send or a close leaves alone. -/
structure World.Frame (w w1 : World) : Prop where
  connList : w1.aliveList.ConnList = w.aliveList.ConnList
  len : w1.aliveList.Len = w.aliveList.Len
  now : w1.now = w.now
  writeFails : w1.writeFails = w.writeFails
  closeFails : w1.closeFails = w.closeFails

/-! ## Sample inputs -/

def freshChan : IntChan := { buf := [], closed := false }

/-- A world just after `init`: `aliveList = NewAliveList()`, every connection healthy. -/
def freshWorld : World :=
  { aliveList := NewAliveList, chans := fun _ => freshChan, nextChan := 0, now := 100,
    writeFails := fun _ => false, closeFails := fun _ => false, trace := [] }

/-- As `freshWorld`, but writes on connection 1 fail. -/
def brokenWorld : World := { freshWorld with writeFails := fun conn => decide (conn = 1) }

def clientA : Client := { ID := "a", conn := 1, cancel := 1 }
def clientA2 : Client := { ID := "a", conn := 2, cancel := 2 }
def clientB : Client := { ID := "b", conn := 3, cancel := 3 }

/-- A broadcast from sender `z` that carries routing hints. -/
def msgZ : Message :=
  { ID := "z", Content := "hi", SentAt := 7, Typ := BroadcastMessage,
    To := "a", GroupID := "g", FromUserID := "u1", ToUserID := "u2" }

/-- A world whose broadcast channel holds `streamCap` messages. -/
def fullWorld : World :=
  { freshWorld with aliveList := { NewAliveList with broadcast := List.replicate 1000 msgZ } }


/-- The map is keyed by client id, as `run` builds it (`al.ConnList[client.ID] = client`). -/
def keyedByID (al : AliveList) : Prop :=
  ∀ id r, al.ConnList.lookup id = some r → r.ID = id

/-- A world with `clientB` and `clientA` registered (the map visits `a` first). -/
def worldAB : World :=
  { freshWorld with aliveList :=
    { NewAliveList with
      ConnList := ((∅ : AList fun _ : String => Client).insert "b" clientB).insert "a" clientA,
      Len := 2 } }

/-- The client `NewWebSocket` builds in `freshWorld` for id `a` on connection 1. -/
def socketA : Client := { ID := "a", conn := 1, cancel := 0 }

/-- The world after that `NewWebSocket` call. -/
def socketWorld : World := (NewWebSocket freshWorld "a" (.ok 1)).world

/-- A run in which the connection of `clientA` is broken: `b` and `a` register, two
broadcasts from `z` are queued, and the loop processes the three broadcasts
queued before the second one from `z`. -/
def stuckSteps : List Step :=
  [.Register clientB, .run .register, .run .broadcast,
   .Register clientA, .run .register,
   .Broadcast msgZ, .Broadcast msgZ,
   .run .broadcast, .run .broadcast]

/-- The world after `stuckSteps`. -/
def stuckWorld : World := (exec brokenWorld stuckSteps).world

/-! ## Frame lemmas -/

theorem World.Frame.refl (w : World) : World.Frame w w := ⟨rfl, rfl, rfl, rfl, rfl⟩

theorem World.Frame.trans {w w1 w2 : World} (h1 : World.Frame w w1) (h2 : World.Frame w1 w2) :
    World.Frame w w2 :=
  ⟨h2.connList.trans h1.connList, h2.len.trans h1.len, h2.now.trans h1.now,
    h2.writeFails.trans h1.writeFails, h2.closeFails.trans h1.closeFails⟩

theorem Outcome.world_bind_ret {α β : Type} (o : Outcome α) (g : α → β) :
    (o.bind fun w a => Outcome.ok w (g a)).world = o.world := by
  cases o <;> rfl

theorem newEvents_of_trace {α : Type} {w : World} {o : Outcome α} {es : List Event}
    (h : o.world.trace = w.trace ++ es) : newEvents w o = es := by
  simp [newEvents, h]

theorem Close_trace (w : World) (cli : Client) :
    (Client.Close w cli).world.trace = w.trace ++ [.callClose cli] := by
  unfold Client.Close AliveList.Broadcast AliveList.Destroy
  simp only [World.record]
  split_ifs <;> simp [Outcome.bind, Outcome.world]
  split_ifs <;> simp [Outcome.world]

theorem Close_frame (w : World) (cli : Client) : World.Frame w (Client.Close w cli).world := by
  unfold Client.Close AliveList.Broadcast AliveList.Destroy
  simp only [World.record]
  split_ifs <;> simp [Outcome.bind, Outcome.world] <;> (try split_ifs) <;> constructor <;>
    simp [Outcome.world]

theorem SendMessage_trace (w : World) (cli : Client) (t : Int) (c : String) :
    (Client.SendMessage w cli t c).world.trace = w.trace ++ sendEvents w cli t c := by
  unfold Client.SendMessage sendEvents
  by_cases ht : t = BreakMessage
  · simp [ht, Conn.WriteMessageClose, World.record, Outcome.world]
  · by_cases hf : w.writeFails cli.conn = true
    · simp only [ht, if_false, Conn.WriteJSON, World.record, hf, if_true]
      rw [Outcome.world_bind_ret _ (fun _ => some (Error.write cli.conn)), Close_trace]
      simp [envelope]
    · simp [ht, hf, Conn.WriteJSON, World.record, Outcome.world, envelope]

theorem SendMessage_frame (w : World) (cli : Client) (t : Int) (c : String) :
    World.Frame w (Client.SendMessage w cli t c).world := by
  unfold Client.SendMessage
  by_cases ht : t = BreakMessage
  · simp only [ht, if_true, Conn.WriteMessageClose, World.record, Outcome.world]
    exact ⟨rfl, rfl, rfl, rfl, rfl⟩
  · by_cases hf : w.writeFails cli.conn = true
    · simp only [ht, if_false, Conn.WriteJSON, World.record, hf, if_true]
      rw [Outcome.world_bind_ret _ (fun _ => some (Error.write cli.conn))]
      refine World.Frame.trans ?_ (Close_frame _ cli)
      exact ⟨rfl, rfl, rfl, rfl, rfl⟩
    · simp only [ht, if_false, Conn.WriteJSON, World.record, hf, Outcome.world]
      exact ⟨rfl, rfl, rfl, rfl, rfl⟩

theorem sendEvents_frame {w w1 : World} (h : World.Frame w w1) (cli : Client) (t : Int)
    (c : String) : sendEvents w1 cli t c = sendEvents w cli t c := by
  simp [sendEvents, envelope, h.now, h.writeFails]

theorem recipientsOf_frame {w w1 : World} (h : World.Frame w w1) (m : Message)
    (keys : List String) : recipientsOf w1 m keys = recipientsOf w m keys := by
  simp [recipientsOf, h.connList]

/-- The broadcast loop sends, in order, to an initial segment of the recipients,
to all of them when it returns, and logs nothing but these sends. -/
theorem fanout_spec (m : Message) : ∀ (keys : List String) (w : World),
    ∃ rs : List Client, rs <+: recipientsOf w m keys ∧
      ((AliveList.fanout m w keys).isOk = true → rs = recipientsOf w m keys) ∧
      (AliveList.fanout m w keys).world.trace
        = w.trace ++ rs.flatMap (fun r => sendEvents w r m.Typ m.Content) ∧
      World.Frame w (AliveList.fanout m w keys).world := by
  intro keys
  induction keys with
  | nil =>
    intro w
    exact ⟨[], by simp [recipientsOf], by simp [recipientsOf],
      by simp [AliveList.fanout, Outcome.world], World.Frame.refl w⟩
  | cons id ids ih =>
    intro w
    by_cases hid : id = m.ID
    · obtain ⟨rs, h1, h2, h3, h4⟩ := ih w
      refine ⟨rs, ?_, ?_, ?_, ?_⟩
      · simpa [recipientsOf, hid] using h1
      · simpa [recipientsOf, hid, AliveList.fanout] using h2
      · simpa [AliveList.fanout, hid] using h3
      · simpa [AliveList.fanout, hid] using h4
    · cases hl : w.aliveList.ConnList.lookup id with
      | none =>
        obtain ⟨rs, h1, h2, h3, h4⟩ := ih w
        refine ⟨rs, ?_, ?_, ?_, ?_⟩
        · simpa [recipientsOf, hid, hl] using h1
        · simpa [recipientsOf, hid, hl, AliveList.fanout, AliveList.sendMessage] using h2
        · simpa [AliveList.fanout, hid, hl, AliveList.sendMessage] using h3
        · simpa [AliveList.fanout, hid, hl, AliveList.sendMessage] using h4
      | some cli =>
        have hrec : recipientsOf w m (id :: ids) = cli :: recipientsOf w m ids := by
          simp [recipientsOf, hid, hl]
        have htr := SendMessage_trace w cli m.Typ m.Content
        have hfr := SendMessage_frame w cli m.Typ m.Content
        have hfan : AliveList.fanout m w (id :: ids)
            = match Client.SendMessage w cli m.Typ m.Content with
              | .ok w1 _ => AliveList.fanout m w1 ids
              | .blocked w1 => .blocked w1
              | .panicked w1 => .panicked w1
              | .exited w1 => .exited w1 := by
          simp [AliveList.fanout, hid, AliveList.sendMessage, hl]
        rw [hfan, hrec]
        cases hs : Client.SendMessage w cli m.Typ m.Content with
        | ok w1 a =>
          rw [hs] at htr hfr
          simp only [Outcome.world] at htr hfr
          obtain ⟨rs, h1, h2, h3, h4⟩ := ih w1
          refine ⟨cli :: rs, ?_, ?_, ?_, ?_⟩
          · rw [recipientsOf_frame hfr] at h1
            obtain ⟨tl, htl⟩ := h1
            exact ⟨tl, by rw [← htl]; rfl⟩
          · intro hok
            rw [h2 hok, recipientsOf_frame hfr]
          · simp only [h3, htr, List.flatMap_cons, List.append_assoc, sendEvents_frame hfr]
          · exact World.Frame.trans hfr h4
        | blocked w1 =>
          rw [hs] at htr hfr
          simp only [Outcome.world] at htr hfr
          exact ⟨[cli], ⟨_, rfl⟩, by simp [Outcome.isOk],
            by simpa [Outcome.world] using htr, hfr⟩
        | panicked w1 =>
          rw [hs] at htr hfr
          simp only [Outcome.world] at htr hfr
          exact ⟨[cli], ⟨_, rfl⟩, by simp [Outcome.isOk],
            by simpa [Outcome.world] using htr, hfr⟩
        | exited w1 =>
          rw [hs] at htr hfr
          simp only [Outcome.world] at htr hfr
          exact ⟨[cli], ⟨_, rfl⟩, by simp [Outcome.isOk],
            by simpa [Outcome.world] using htr, hfr⟩

theorem mem_recipientsOf {w : World} {m : Message} {keys : List String} {r : Client}
    (h : r ∈ recipientsOf w m keys) :
    ∃ id, id ∈ keys ∧ id ≠ m.ID ∧ w.aliveList.ConnList.lookup id = some r := by
  simp only [recipientsOf, List.mem_filterMap, List.mem_filter, decide_eq_true_eq] at h
  obtain ⟨id, ⟨hk, hne⟩, hl⟩ := h
  exact ⟨id, hk, hne, hl⟩


theorem sendCalls_sendEvents_append (w : World) (r : Client) (t : Int) (c : String)
    (es : List Event) : sendCalls (sendEvents w r t c ++ es) = r :: sendCalls es := by
  by_cases ht : t = BreakMessage
  · simp [sendEvents, ht, sendCalls]
  · by_cases hf : w.writeFails r.conn = true <;> simp [sendEvents, ht, hf, sendCalls]

theorem sendCalls_flatMap (w : World) (t : Int) (c : String) (rs : List Client) :
    sendCalls (rs.flatMap fun r => sendEvents w r t c) = rs := by
  induction rs with
  | nil => simp [sendCalls]
  | cons r rs ih => rw [List.flatMap_cons, sendCalls_sendEvents_append, ih]

theorem worldAB_keyedByID : keyedByID worldAB.aliveList := by
  intro id r h
  by_cases ha : id = "a"
  · subst ha
    have : r = clientA := by
      have h2 : AList.lookup "a" worldAB.aliveList.ConnList = some clientA := by decide
      rw [h2] at h
      exact (Option.some.inj h).symm
    rw [this]; rfl
  · by_cases hb : id = "b"
    · subst hb
      have : r = clientB := by
        have h2 : AList.lookup "b" worldAB.aliveList.ConnList = some clientB := by decide
        rw [h2] at h
        exact (Option.some.inj h).symm
      rw [this]; rfl
    · exfalso
      have : AList.lookup id worldAB.aliveList.ConnList = none := by
        have hAB : worldAB.aliveList.ConnList
            = ((∅ : AList fun _ : String => Client).insert "b" clientB).insert "a" clientA :=
          rfl
        rw [hAB, AList.lookup_insert_ne ha, AList.lookup_insert_ne hb]
        rfl
      rw [this] at h
      exact Option.noConfusion h

/-- The clients on which one broadcast enters `SendMessage` are, in order, an
initial segment of the registered clients whose key differs from the sender
id; when the broadcast case returns they are all of them, each once. -/
theorem run_broadcast_sendCalls (w : World) (m : Message) :
    sendCalls (newEvents w (AliveList.run_broadcast w m))
        <+: recipientsOf w m w.aliveList.ConnList.keys ∧
    ((AliveList.run_broadcast w m).isOk = true →
      sendCalls (newEvents w (AliveList.run_broadcast w m))
        = recipientsOf w m w.aliveList.ConnList.keys) := by
  obtain ⟨rs, hpre, hall, htr, -⟩ := fanout_spec m w.aliveList.ConnList.keys w
  have hnew : newEvents w (AliveList.run_broadcast w m)
      = rs.flatMap (fun r => sendEvents w r m.Typ m.Content) :=
    newEvents_of_trace htr
  rw [hnew, sendCalls_flatMap]
  exact ⟨hpre, hall⟩

/-! ## `Client.SendMessage` -/

/-- C5: whatever the content and whatever the write reports, `SendMessage` puts
exactly one frame on the wire: the close frame when `messageType` is
`BreakMessage` (and then no JSON envelope), the JSON envelope of the message in
every other case (and then no close frame). -/
theorem SendMessage_wire (w : World) (cli : Client) (messageType : Int) (message : String) :
    wireWrites (newEvents w (Client.SendMessage w cli messageType message))
      = [if messageType = BreakMessage then Event.writeClose cli.conn
         else Event.writeJSON cli.conn
           { ID := cli.ID, Content := message, SentAt := w.now, Typ := messageType,
             To := "", GroupID := "", FromUserID := "", ToUserID := "" }] := by
  rw [newEvents_of_trace (SendMessage_trace w cli messageType message)]
  by_cases ht : messageType = BreakMessage
  · simp [sendEvents, ht, wireWrites, Event.isWire]
  · by_cases hf : w.writeFails cli.conn = true <;>
      simp [sendEvents, ht, hf, wireWrites, Event.isWire, envelope]

/-- C4, the claim as stated fails for `BreakMessage`: in `brokenWorld` the write
of the close frame to `clientA` fails, `SendMessage` returns that error, and
`Client.Close` was not entered. -/
theorem SendMessage_break_no_close :
    brokenWorld.writeFails clientA.conn = true ∧
    (Client.SendMessage brokenWorld clientA BreakMessage "").value?
      = some (some (Error.write clientA.conn)) ∧
    Event.callClose clientA ∉ newEvents brokenWorld
      (Client.SendMessage brokenWorld clientA BreakMessage "") := by
  decide

/-- C4 (amended): when the transport write fails, then for every type other
than `BreakMessage` `Client.Close` is entered on that client exactly once after
the write, and if the cancel channel of the client is open and empty and the
broadcast and destroy channels have room, `SendMessage` returns the write
error; for `BreakMessage` the write error is returned and `Close` is not
entered. -/
theorem SendMessage_write_failure (w : World) (cli : Client) (messageType : Int)
    (message : String) (hfail : w.writeFails cli.conn = true) :
    (messageType ≠ BreakMessage →
      newEvents w (Client.SendMessage w cli messageType message)
        = [Event.callSend cli messageType message,
           Event.writeJSON cli.conn (envelope w cli messageType message),
           Event.callClose cli] ∧
      ((w.chans cli.cancel).closed = false → (w.chans cli.cancel).buf = [] →
        w.aliveList.broadcast.length < streamCap → w.aliveList.destroy.length < streamCap →
        (Client.SendMessage w cli messageType message).value?
          = some (some (Error.write cli.conn)))) ∧
    (messageType = BreakMessage →
      (Client.SendMessage w cli messageType message).value? = some (some (Error.write cli.conn)) ∧
      Event.callClose cli ∉ newEvents w (Client.SendMessage w cli messageType message)) := by
  refine ⟨fun ht => ⟨?_, ?_⟩, fun ht => ⟨?_, ?_⟩⟩
  · rw [newEvents_of_trace (SendMessage_trace w cli messageType message)]
    simp [sendEvents, ht, hfail]
  · intro hc hb hbr hde
    simp [Client.SendMessage, ht, Conn.WriteJSON, hfail, Client.Close, World.record, hc, hb,
      cancelCap, AliveList.Broadcast, hbr, Outcome.bind, AliveList.Destroy, hde, Outcome.value?]
  · simp [Client.SendMessage, ht, Conn.WriteMessageClose, World.record, hfail, Outcome.value?]
  · rw [newEvents_of_trace (SendMessage_trace w cli messageType message)]
    simp [sendEvents, ht]

/-- Witness for C4 (amended): a heartbeat to `clientA` in `brokenWorld`. -/
theorem SendMessage_write_failure_witness :
    newEvents brokenWorld (Client.SendMessage brokenWorld clientA HeartBeatMessage "heart beat")
        = [Event.callSend clientA HeartBeatMessage "heart beat",
           Event.writeJSON clientA.conn (envelope brokenWorld clientA HeartBeatMessage "heart beat"),
           Event.callClose clientA] ∧
    (Client.SendMessage brokenWorld clientA HeartBeatMessage "heart beat").value?
        = some (some (Error.write clientA.conn)) :=
  have h := (SendMessage_write_failure brokenWorld clientA HeartBeatMessage "heart beat"
    (by decide)).1 (by decide)
  ⟨h.1, h.2 (by decide) (by decide) (by decide) (by decide)⟩

/-! ## `HandleRequest` -/

/-- C6, the claim as stated fails for the reserved types above `HeartBeatMessage`:
a decoded message of type `ConnectedMessage` (3, inside 0..6) reaches the
default hook. -/
theorem HandleRequest_reserved_to_default :
    (0 ≤ ConnectedMessage ∧ ConnectedMessage ≤ 6) ∧
    HandleRequest (fun _ => .ok { msgZ with Typ := ConnectedMessage }) clientA []
      = ([Hook.DefaultMessageEvent ConnectedMessage { msgZ with Typ := ConnectedMessage } clientA],
         none) := by
  decide

/-- C6 (amended): for a payload that decodes to a message, `HandleRequest`
makes exactly one hook call and returns nil: the broadcast hook exactly when the
type is `SystemMessage` or `BroadcastMessage`, the heartbeat hook exactly when
it is `HeartBeatMessage`, the default hook exactly when it is none of these
three (so also for the reserved types 3..6); for a payload that fails to decode
it makes no hook call and returns the decode error. -/
theorem HandleRequest_dispatch (Unmarshal : List UInt8 → Except Error Message) (cli : Client)
    (payload : List UInt8) :
    (∀ m, Unmarshal payload = .ok m →
      (HandleRequest Unmarshal cli payload).2 = none ∧
      (HandleRequest Unmarshal cli payload).1.length = 1 ∧
      ((HandleRequest Unmarshal cli payload).1 = [Hook.BroadcastEvent m cli]
        ↔ (m.Typ = SystemMessage ∨ m.Typ = BroadcastMessage)) ∧
      ((HandleRequest Unmarshal cli payload).1 = [Hook.HeartBeatEvent m cli]
        ↔ m.Typ = HeartBeatMessage) ∧
      ((HandleRequest Unmarshal cli payload).1 = [Hook.DefaultMessageEvent m.Typ m cli]
        ↔ (m.Typ ≠ SystemMessage ∧ m.Typ ≠ BroadcastMessage ∧ m.Typ ≠ HeartBeatMessage))) ∧
    (∀ err, Unmarshal payload = .error err →
      HandleRequest Unmarshal cli payload = ([], some err)) := by
  refine ⟨fun m hm => ?_, fun err he => by simp [HandleRequest, he]⟩
  by_cases h1 : m.Typ = BroadcastMessage
  · simp [HandleRequest, hm, h1, BroadcastMessage, SystemMessage, HeartBeatMessage]
  · by_cases h0 : m.Typ = SystemMessage
    · simp [HandleRequest, hm, h0, BroadcastMessage, SystemMessage, HeartBeatMessage]
    · by_cases h2 : m.Typ = HeartBeatMessage
      · simp [HandleRequest, hm, h2, BroadcastMessage, SystemMessage, HeartBeatMessage]
      · simp [HandleRequest, hm, h0, h1, h2]

/-- Witness for C6 (amended): a payload decoding to `msgZ`, of type `BroadcastMessage`. -/
theorem HandleRequest_dispatch_witness :
    (HandleRequest (fun _ => .ok msgZ) clientA []).2 = none ∧
    (HandleRequest (fun _ => .ok msgZ) clientA []).1.length = 1 ∧
    ((HandleRequest (fun _ => .ok msgZ) clientA []).1 = [Hook.BroadcastEvent msgZ clientA]
      ↔ (msgZ.Typ = SystemMessage ∨ msgZ.Typ = BroadcastMessage)) :=
  have h := (HandleRequest_dispatch (fun _ => .ok msgZ) clientA []).1 msgZ rfl
  ⟨h.1, h.2.1, h.2.2.1⟩


/-! ## The register and destroy cases of `run` -/

/-- C7, the claim as stated fails when the broadcast channel is full: in
`fullWorld` (1000 buffered messages) the register case for `clientA` updates the
map and then stays suspended in `al.broadcast <- message`; no message is
enqueued. -/
theorem run_register_full_blocks :
    fullWorld.aliveList.broadcast.length = streamCap ∧
    (AliveList.run_register fullWorld clientA).isBlocked = true ∧
    (AliveList.run_register fullWorld clientA).world.aliveList.broadcast
      = fullWorld.aliveList.broadcast := by
  have hlen : fullWorld.aliveList.broadcast.length = streamCap := List.length_replicate _ _
  have hfull : ¬ ({ fullWorld with aliveList :=
      { fullWorld.aliveList with
        ConnList := fullWorld.aliveList.ConnList.insert clientA.ID clientA,
        Len := fullWorld.aliveList.Len + 1 } } : World).aliveList.broadcast.length
        < streamCap := by
    show ¬ fullWorld.aliveList.broadcast.length < streamCap
    rw [hlen]
    exact Nat.lt_irrefl _
  refine ⟨hlen, ?_, ?_⟩
  · simp only [AliveList.run_register, AliveList.SysBroadcast, AliveList.Broadcast]
    rw [if_neg hfull]
    rfl
  · simp only [AliveList.run_register, AliveList.SysBroadcast, AliveList.Broadcast]
    rw [if_neg hfull]
    rfl

/-- C7 (amended): for every state in which the broadcast channel holds fewer
than 1000 messages and every client `c`, the register case returns; afterwards
`ConnList` maps `c.ID` to `c`, every entry under another id is unchanged, and
the broadcast channel has gained exactly one message, at its end, with
`ID = c.ID`, `Content = "connected"`, `Type = ConnectedMessage` and `SentAt`
the clock reading. -/
theorem run_register_spec (w : World) (c : Client)
    (hroom : w.aliveList.broadcast.length < streamCap) :
    ∃ w1, AliveList.run_register w c = .ok w1 () ∧
      w1.aliveList.ConnList.lookup c.ID = some c ∧
      (∀ id, id ≠ c.ID → w1.aliveList.ConnList.lookup id = w.aliveList.ConnList.lookup id) ∧
      w1.aliveList.broadcast = w.aliveList.broadcast ++
        [{ ID := c.ID, Content := "connected", SentAt := w.now, Typ := ConnectedMessage,
           To := "", GroupID := "", FromUserID := "", ToUserID := "" }] := by
  have hrun : AliveList.run_register w c
      = .ok (AliveList.run_register w c).world () := by
    simp only [AliveList.run_register, AliveList.SysBroadcast, AliveList.Broadcast, hroom,
      if_true, Outcome.world]
  refine ⟨(AliveList.run_register w c).world, hrun, ?_, ?_, ?_⟩
  · simp [AliveList.run_register, AliveList.SysBroadcast, AliveList.Broadcast, hroom,
      Outcome.world]
  · intro id hid
    simp [AliveList.run_register, AliveList.SysBroadcast, AliveList.Broadcast, hroom,
      Outcome.world, AList.lookup_insert_ne hid]
  · simp [AliveList.run_register, AliveList.SysBroadcast, AliveList.Broadcast, hroom,
      Outcome.world]

/-- Witness for C7 (amended): registering `clientA2` over `clientA`. -/
theorem run_register_spec_witness :
    ∃ w1, AliveList.run_register (AliveList.run_register freshWorld clientA).world clientA2
        = .ok w1 () ∧
      w1.aliveList.ConnList.lookup clientA2.ID = some clientA2 ∧
      (∀ id, id ≠ clientA2.ID → w1.aliveList.ConnList.lookup id
        = (AliveList.run_register freshWorld clientA).world.aliveList.ConnList.lookup id) ∧
      w1.aliveList.broadcast
        = (AliveList.run_register freshWorld clientA).world.aliveList.broadcast ++
        [{ ID := clientA2.ID, Content := "connected",
           SentAt := (AliveList.run_register freshWorld clientA).world.now,
           Typ := ConnectedMessage,
           To := "", GroupID := "", FromUserID := "", ToUserID := "" }] :=
  run_register_spec (AliveList.run_register freshWorld clientA).world clientA2 (by decide)

/-- C8: for every state and every client `c` the destroy case returns, whether
or not `conn.Close()` reports an error; it has closed the connection of `c` (and no
other), `ConnList` has no entry under `c.ID`, and every entry under another id
is unchanged. From `NewAliveList()`, registering `A` and then destroying `A`
leaves `ConnList` empty, and a broadcast processed afterwards enters
`SendMessage` for no client and writes nothing. -/
theorem run_destroy_spec :
    (∀ (w : World) (c : Client), ∃ w1, AliveList.run_destroy w c = .ok w1 () ∧
      newEvents w (AliveList.run_destroy w c) = [Event.connClose c.conn] ∧
      w1.aliveList.ConnList.lookup c.ID = none ∧
      (∀ id, id ≠ c.ID → w1.aliveList.ConnList.lookup id = w.aliveList.ConnList.lookup id)) ∧
    (∀ (w : World) (A : Client) (m : Message), w.aliveList = NewAliveList →
      ∃ w2, exec w [.Register A, .run .register, .Destroy A, .run .destroy] = .ok w2 () ∧
        w2.aliveList.ConnList.keys = [] ∧
        (AliveList.run_broadcast w2 m).isOk = true ∧
        newEvents w2 (AliveList.run_broadcast w2 m) = []) := by
  constructor
  · intro w c
    refine ⟨_, rfl, ?_, ?_, ?_⟩
    · simp [newEvents, AliveList.run_destroy, Conn.Close, World.record, Outcome.world]
    · simp [Conn.Close, World.record]
    · intro id hid
      simp [Conn.Close, World.record, AList.lookup_erase_ne hid]
  · intro w A m hw
    obtain ⟨al, chans, nextChan, now, wf, cf, trace⟩ := w
    simp only at hw
    subst hw
    have hrun : exec ⟨NewAliveList, chans, nextChan, now, wf, cf, trace⟩
        [.Register A, .run .register, .Destroy A, .run .destroy]
        = .ok ⟨{ NewAliveList with
                  ConnList := ((∅ : AList fun _ : String => Client).insert A.ID A).erase A.ID,
                  broadcast := [{ ID := A.ID, Content := "connected", SentAt := now,
                                  Typ := ConnectedMessage, To := "", GroupID := "",
                                  FromUserID := "", ToUserID := "" }] },
                chans, nextChan, now, wf, cf, trace ++ [Event.connClose A.conn]⟩ () := by
      simp [exec, Step.exec, AliveList.Register, AliveList.Destroy, AliveList.run,
        AliveList.run_register, AliveList.run_destroy, AliveList.SysBroadcast,
        AliveList.Broadcast, Conn.Close, World.record, Outcome.bind, NewAliveList, streamCap]
    have hkeys : (((∅ : AList fun _ : String => Client).insert A.ID A).erase A.ID).keys
        = [] := by
      simp [AList.keys_erase, AList.keys_insert]
    refine ⟨_, hrun, hkeys, ?_, ?_⟩
    · simp only [AliveList.run_broadcast, hkeys, AliveList.fanout, Outcome.isOk]
    · simp only [AliveList.run_broadcast, hkeys, AliveList.fanout, newEvents, Outcome.world,
        List.drop_length]

/-- Witness for C8: the scenario run in `freshWorld` with `clientA` and `msgZ`. -/
theorem run_destroy_spec_witness :
    ∃ w2, exec freshWorld [.Register clientA, .run .register, .Destroy clientA, .run .destroy]
        = .ok w2 () ∧
      w2.aliveList.ConnList.keys = [] ∧
      (AliveList.run_broadcast w2 msgZ).isOk = true ∧
      newEvents w2 (AliveList.run_broadcast w2 msgZ) = [] :=
  run_destroy_spec.2 freshWorld clientA msgZ rfl


/-! ## The broadcast case of `run` -/

/-- C9: every JSON envelope written while one broadcast of `m` is processed goes
to the connection of a client `r` registered under an id other than `m.ID`, and
has `Type = m.Type`, `Content = m.Content`, `ID = r.ID`, `SentAt` the clock
reading, and empty `To`, `GroupID`, `FromUserID`, `ToUserID`; and for every
client `r` on which the broadcast enters `SendMessage`, the call carries
`m.Type` and `m.Content` and, unless `m.Type` is `BreakMessage`, that envelope
is written to the connection of `r`. -/
theorem run_broadcast_envelope (w : World) (m : Message) :
    (∀ conn env, Event.writeJSON conn env ∈ newEvents w (AliveList.run_broadcast w m) →
      ∃ id r, w.aliveList.ConnList.lookup id = some r ∧ id ≠ m.ID ∧ conn = r.conn ∧
        env = { ID := r.ID, Content := m.Content, SentAt := w.now, Typ := m.Typ,
                To := "", GroupID := "", FromUserID := "", ToUserID := "" }) ∧
    (∀ r t c, Event.callSend r t c ∈ newEvents w (AliveList.run_broadcast w m) →
      t = m.Typ ∧ c = m.Content ∧
      (m.Typ ≠ BreakMessage →
        Event.writeJSON r.conn
          { ID := r.ID, Content := m.Content, SentAt := w.now, Typ := m.Typ,
            To := "", GroupID := "", FromUserID := "", ToUserID := "" }
          ∈ newEvents w (AliveList.run_broadcast w m))) := by
  obtain ⟨rs, hpre, -, htr, -⟩ := fanout_spec m w.aliveList.ConnList.keys w
  have hnew : newEvents w (AliveList.run_broadcast w m)
      = rs.flatMap (fun r => sendEvents w r m.Typ m.Content) :=
    newEvents_of_trace htr
  rw [hnew]
  constructor
  · intro conn env hmem
    obtain ⟨r, hr, he⟩ := List.mem_flatMap.1 hmem
    obtain ⟨id, -, hne, hl⟩ := mem_recipientsOf (hpre.subset hr)
    refine ⟨id, r, hl, hne, ?_⟩
    by_cases ht : m.Typ = BreakMessage
    · simp [sendEvents, ht] at he
    · by_cases hf : w.writeFails r.conn = true <;>
        simpa [sendEvents, ht, hf, envelope] using he
  · intro r t c hmem
    obtain ⟨r1, hr1, he⟩ := List.mem_flatMap.1 hmem
    have hr : r = r1 ∧ t = m.Typ ∧ c = m.Content := by
      by_cases ht : m.Typ = BreakMessage
      · simpa [sendEvents, ht] using he
      · by_cases hf : w.writeFails r1.conn = true <;> simpa [sendEvents, ht, hf] using he
    obtain ⟨rfl, rfl, rfl⟩ := hr
    refine ⟨rfl, rfl, fun ht => List.mem_flatMap.2 ⟨r, hr1, ?_⟩⟩
    simp [sendEvents, ht, envelope]

/-- Witness for C9: `msgZ`, which carries a sender id, a timestamp and routing
hints, broadcast to `clientA` and `clientB`; the envelope that reaches
`clientB` carries none of them. -/
theorem run_broadcast_envelope_witness :
    Event.callSend clientB msgZ.Typ msgZ.Content
        ∈ newEvents worldAB (AliveList.run_broadcast worldAB msgZ) ∧
    Event.writeJSON clientB.conn
        { ID := "b", Content := "hi", SentAt := 100, Typ := BroadcastMessage,
          To := "", GroupID := "", FromUserID := "", ToUserID := "" }
        ∈ newEvents worldAB (AliveList.run_broadcast worldAB msgZ) :=
  ⟨by decide,
   ((run_broadcast_envelope worldAB msgZ).2 clientB msgZ.Typ msgZ.Content (by decide)).2.2
     (by decide)⟩

/-- C10: for clients `c1`, `c2` with the same `ID` and different connections,
in any state whose map is keyed by client id and whose broadcast channel has
room for two messages, processing register `c1`, register `c2`, destroy `c1`
returns; after the second register the id maps to `c2`; at the end the id has
no entry, the only connection closed is that of `c1` (not that of `c2`), and a
broadcast processed afterwards does not enter `SendMessage` on `c2`. -/
theorem destroy_keyed_by_id (w : World) (c1 c2 : Client) (m : Message)
    (hid : c1.ID = c2.ID) (hconn : c1.conn ≠ c2.conn) (hinv : keyedByID w.aliveList)
    (hroom : w.aliveList.broadcast.length + 2 ≤ streamCap) :
    ∃ w2 w3, (AliveList.run_register w c1).bind (fun w1 _ => AliveList.run_register w1 c2)
        = .ok w2 () ∧
      w2.aliveList.ConnList.lookup c2.ID = some c2 ∧
      AliveList.run_destroy w2 c1 = .ok w3 () ∧
      w3.aliveList.ConnList.lookup c2.ID = none ∧
      w3.trace = w.trace ++ [Event.connClose c1.conn] ∧
      Event.connClose c2.conn ∉ w3.trace.drop w.trace.length ∧
      c2 ∉ sendCalls (newEvents w3 (AliveList.run_broadcast w3 m)) := by
  have h1 : w.aliveList.broadcast.length < streamCap := by omega
  have h2 : w.aliveList.broadcast.length + 1 < streamCap := by omega
  let al2 : AliveList :=
    { w.aliveList with
      ConnList := (w.aliveList.ConnList.insert c1.ID c1).insert c2.ID c2,
      Len := w.aliveList.Len + 1 + 1,
      broadcast := w.aliveList.broadcast ++
        [{ ID := c1.ID, Content := "connected", SentAt := w.now, Typ := ConnectedMessage,
           To := "", GroupID := "", FromUserID := "", ToUserID := "" },
         { ID := c2.ID, Content := "connected", SentAt := w.now, Typ := ConnectedMessage,
           To := "", GroupID := "", FromUserID := "", ToUserID := "" }] }
  let w2 : World := { w with aliveList := al2 }
  let w3 : World :=
    { w2 with
      aliveList := { al2 with ConnList := al2.ConnList.erase c1.ID, Len := al2.Len - 1 },
      trace := w.trace ++ [Event.connClose c1.conn] }
  have hc2 : w2.aliveList.ConnList
      = (w.aliveList.ConnList.insert c1.ID c1).insert c2.ID c2 := rfl
  have hc3 : w3.aliveList.ConnList
      = ((w.aliveList.ConnList.insert c1.ID c1).insert c2.ID c2).erase c1.ID := rfl
  have hlook3 : w3.aliveList.ConnList.lookup c2.ID = none := by
    rw [hc3, hid]
    exact AList.lookup_erase _ _
  refine ⟨w2, w3, ?_, ?_, ?_, hlook3, rfl, ?_, ?_⟩
  · simp [AliveList.run_register, AliveList.SysBroadcast, AliveList.Broadcast, Outcome.bind,
      h1, h2, w2, al2]
  · rw [hc2]
    exact AList.lookup_insert _
  · simp [AliveList.run_destroy, Conn.Close, World.record, w3, w2, al2]
  · simp [w3, hconn.symm]
  · intro hmem
    obtain ⟨rs, hpre, -, htr, -⟩ := fanout_spec m w3.aliveList.ConnList.keys w3
    have hnew : newEvents w3 (AliveList.run_broadcast w3 m)
        = rs.flatMap (fun r => sendEvents w3 r m.Typ m.Content) :=
      newEvents_of_trace htr
    rw [hnew, sendCalls_flatMap] at hmem
    obtain ⟨id, -, -, hl⟩ := mem_recipientsOf (hpre.subset hmem)
    by_cases hne : id = c2.ID
    · rw [hne, hlook3] at hl
      exact Option.noConfusion hl
    · have hl0 : w.aliveList.ConnList.lookup id = some c2 := by
        have : w3.aliveList.ConnList.lookup id = w.aliveList.ConnList.lookup id := by
          rw [hc3, AList.lookup_erase_ne (hid ▸ hne), AList.lookup_insert_ne hne,
            AList.lookup_insert_ne (hid ▸ hne)]
        rw [← this]
        exact hl
      exact hne (hinv id c2 hl0).symm

/-- Witness for C10: `clientA` and `clientA2` (both with id `a`) on top of `worldAB`. -/
theorem destroy_keyed_by_id_witness :
    ∃ w2 w3, (AliveList.run_register worldAB clientA).bind
          (fun w1 _ => AliveList.run_register w1 clientA2) = .ok w2 () ∧
      w2.aliveList.ConnList.lookup clientA2.ID = some clientA2 ∧
      AliveList.run_destroy w2 clientA = .ok w3 () ∧
      w3.aliveList.ConnList.lookup clientA2.ID = none ∧
      w3.trace = worldAB.trace ++ [Event.connClose clientA.conn] ∧
      Event.connClose clientA2.conn ∉ w3.trace.drop worldAB.trace.length ∧
      clientA2 ∉ sendCalls (newEvents w3 (AliveList.run_broadcast w3 msgZ)) :=
  destroy_keyed_by_id worldAB clientA clientA2 msgZ rfl (by decide) worldAB_keyedByID
    (by decide)


/-! ## Evaluations where the code departs from its contract -/

/-- C1, the counter leaves the map size: from `NewAliveList()`, registering
`clientA` and then `clientA2` under the same id gives `Len = 2` with one entry
in `ConnList`; destroying a client that is not registered gives `Len = -1`
with no entry. -/
theorem Len_diverges_from_ConnList :
    (exec freshWorld
      [.Register clientA, .run .register, .Register clientA2, .run .register]).isOk = true ∧
    (exec freshWorld
      [.Register clientA, .run .register, .Register clientA2, .run .register]
      ).world.aliveList.Len = 2 ∧
    (exec freshWorld
      [.Register clientA, .run .register, .Register clientA2, .run .register]
      ).world.aliveList.ConnList.entries.length = 1 ∧
    (exec freshWorld [.Destroy clientB, .run .destroy]).isOk = true ∧
    (exec freshWorld [.Destroy clientB, .run .destroy]).world.aliveList.Len = -1 ∧
    (exec freshWorld [.Destroy clientB, .run .destroy]).world.aliveList.ConnList.entries.length
      = 0 := by
  decide

/-- C2, a failing send stops the fan-out: after `stuckSteps` the loop has
already entered `Close` once on `clientA` (its destroy is queued, its cancel
channel is full), `clientB` is registered under an id other than the sender id,
and `msgZ` heads the broadcast channel. Processing it enters `SendMessage` on
`clientA` only and stays suspended in `cli.cancel <- 1`; if the heartbeat
monitor has taken the first signal and closed the channel, it panics. -/
theorem broadcast_stops_at_failing_send :
    (exec brokenWorld stuckSteps).isOk = true ∧
    stuckWorld.aliveList.ConnList.keys = ["a", "b"] ∧
    stuckWorld.aliveList.ConnList.lookup "b" = some clientB ∧
    stuckWorld.aliveList.broadcast.head? = some msgZ ∧
    stuckWorld.aliveList.destroy = [clientA] ∧
    (AliveList.run stuckWorld .broadcast).isBlocked = true ∧
    sendCalls (newEvents stuckWorld (AliveList.run stuckWorld .broadcast)) = [clientA] ∧
    (exec stuckWorld [.HeartBeat clientA .cancel, .run .broadcast]).isPanicked = true ∧
    sendCalls (newEvents stuckWorld
      (exec stuckWorld [.HeartBeat clientA .cancel, .run .broadcast])) = [clientA] := by
  decide

/-- C3, `Close` is not idempotent: for the client `NewWebSocket` returns, the
first `Close` returns with one destroy queued; a second `Close` stays suspended
in `cli.cancel <- 1` when the heartbeat monitor has not taken the first signal,
and panics (send on a closed channel) when it has taken it and closed the
channel. -/
theorem Close_twice_blocks_or_panics :
    (NewWebSocket freshWorld "a" (.ok 1)).value? = some (.ok socketA) ∧
    (exec socketWorld [.Close socketA]).isOk = true ∧
    (exec socketWorld [.Close socketA]).world.aliveList.destroy = [socketA] ∧
    (exec socketWorld [.Close socketA, .Close socketA]).isBlocked = true ∧
    (exec socketWorld [.Close socketA, .Close socketA]).world.aliveList.destroy = [socketA] ∧
    (exec socketWorld [.Close socketA, .HeartBeat socketA .cancel]).isOk = true ∧
    (exec socketWorld [.Close socketA, .HeartBeat socketA .cancel, .Close socketA]).isPanicked
      = true :=
  ⟨rfl, by decide⟩


end Chat
